import Mathlib

/-!
Shallow embedding of the picpaygo backend's credit / payment / generation
core (src/api), together with proofs about the spec's claims.

Database tables are modelled as association lists (key, row) or plain row
lists inside a single `DB` state; each Python function that talks to the
database becomes a Lean function `DB → DB` (or `DB → DB × result`), with the
SQL statements transcribed one by one.
-/

namespace PicPayGo

/-- Decidable equality of endpoint outcomes, so that concrete runs can be
checked by `decide`. -/
instance exceptDecEq {ε α : Type} [DecidableEq ε] [DecidableEq α] :
    DecidableEq (Except ε α)
  | Except.ok x, Except.ok y =>
      if h : x = y then isTrue (by rw [h]) else
        isFalse (fun hc => h (Except.ok.inj hc))
  | Except.ok _, Except.error _ => isFalse (fun hc => Except.noConfusion hc)
  | Except.error _, Except.ok _ => isFalse (fun hc => Except.noConfusion hc)
  | Except.error g, Except.error f =>
      if h : g = f then isTrue (by rw [h]) else
        isFalse (fun hc => h (Except.error.inj hc))

/-- SELECT value WHERE key = k (first matching row of an association list). -/
def lookupA {α β : Type} [DecidableEq α] : List (α × β) → α → Option β
  | [], _ => none
  | (k, v) :: rest, k0 => if k = k0 then some v else lookupA rest k0

/-- INSERT ... ON CONFLICT (key) DO UPDATE SET value = v0: replace the value
under the key when a row exists, else append a fresh row. -/
def upsertA {α β : Type} [DecidableEq α] : List (α × β) → α → β → List (α × β)
  | [], k0, v0 => [(k0, v0)]
  | (k, v) :: rest, k0, v0 =>
      if k = k0 then (k, v0) :: rest else (k, v) :: upsertA rest k0 v0

/-- UPDATE table SET value = f value WHERE key = k (touches matching rows only). -/
def updateA {α β : Type} [DecidableEq α] (f : β → β) : List (α × β) → α → List (α × β)
  | [], _ => []
  | (k, v) :: rest, k0 =>
      if k = k0 then (k, f v) :: updateA f rest k0 else (k, v) :: updateA f rest k0

/-- Balance semantics of a credit table: a missing row reads as 0
(`credit_row["balance"] if credit_row else 0`). -/
def balanceA (l : List (Nat × Int)) (k : Nat) : Int :=
  (lookupA l k).getD 0

/-- INSERT INTO credits (user_id, balance) VALUES (k, d)
ON CONFLICT (user_id) DO UPDATE SET balance = credits.balance + EXCLUDED.balance. -/
def upsertAdd (l : List (Nat × Int)) (k : Nat) (d : Int) : List (Nat × Int) :=
  match lookupA l k with
  | some _ => updateA (fun b => b + d) l k
  | none => l ++ [(k, d)]

/-! ## Data model (src/api tables) -/

/-- payments.status values. -/
inductive PayStatus where
  | created
  | paid
  | fulfilled
  | failed
  | canceled
deriving DecidableEq, Repr

/-- generations.status values. -/
inductive GenStatus where
  | queued
  | processing
  | completed
  | failed
deriving DecidableEq, Repr

/-- One row of the payments table. -/
structure PaymentRow where
  id : Nat
  user_id : Nat
  pack_id : String
  credits : Int
  stripe_session_id : String
  stripe_payment_intent_id : Option String
  status : PayStatus
  amount_total : Option Int
  currency : Option String
deriving DecidableEq, Repr

/-- One row of the credit_ledger table (append-only audit trail). -/
structure LedgerEntry where
  user_id : Nat
  delta : Int
  reason : String
  stripe_session_id : Option String
deriving DecidableEq, Repr

/-- One row of the generations table. -/
structure GenRow where
  id : Nat
  user_id : Option Nat
  guest_session_id : Option Nat
  category : String
  status : GenStatus
  error_message : Option String
deriving DecidableEq, Repr

/-- The database state: users, credits (user_id -> balance),
ip_credits (ip_address -> free_remaining), payments, credit_ledger, generations. -/
structure DB where
  users : List Nat
  credits : List (Nat × Int)
  ip_credits : List (String × Int)
  payments : List PaymentRow
  credit_ledger : List LedgerEntry
  generations : List GenRow
deriving DecidableEq, Repr

/-- Balance of an account's paid-credit row (0 when no row exists). -/
def DB.balanceOf (db : DB) (u : Nat) : Int :=
  balanceA db.credits u

/-- Number of credit_ledger rows carrying a given external (Stripe) session id. -/
def DB.ledgerCount (db : DB) (sid : String) : Nat :=
  db.credit_ledger.countP (fun e => e.stripe_session_id = some sid)

/-! ## Payment Fulfillment Engine (src/api/services/webhooks/endpoints.py) -/

/-- Decoded checkout-session metadata `{user_id, pack_id, credits}`.
A field is `none` when it is missing from the event or fails its format
validation (UUID parse for user_id, int parse for credits). -/
structure SessionMeta where
  user_id : Option Nat
  pack_id : Option String
  credits : Option Int
deriving DecidableEq, Repr

/-- The checkout-session object carried by a Stripe webhook event. -/
structure StripeSession where
  id : Option String
  payment_intent : Option String
  amount_total : Option Int
  currency : Option String
  metadata : SessionMeta
deriving DecidableEq, Repr

/-- A fresh primary key for an inserted payments row: one larger than every
id already present. -/
def freshPaymentId (db : DB) : Nat :=
  (db.payments.map (fun p => p.id)).foldr max 0 + 1

/-- COALESCE($new, old). -/
def coalesce {α : Type} (new old : Option α) : Option α :=
  match new with
  | some v => some v
  | none => old

/-- Per-row effect of the step-3 UPDATE: mark 'paid' and backfill the
intent/amount/currency fields coalesce-style, on the row with the matching
primary key. -/
def backfillRow (s : StripeSession) (payment_id : Nat) (p : PaymentRow) : PaymentRow :=
  if p.id = payment_id then
    { p with
      status := PayStatus.paid
      stripe_payment_intent_id := coalesce s.payment_intent p.stripe_payment_intent_id
      amount_total := coalesce s.amount_total p.amount_total
      currency := coalesce s.currency p.currency }
  else p

/-- Per-row effect of the step-6 UPDATE: set status 'fulfilled' on the row
with the matching primary key. -/
def fulfillRow (payment_id : Nat) (p : PaymentRow) : PaymentRow :=
  if p.id = payment_id then { p with status := PayStatus.fulfilled } else p

/-- Step 3 of the fulfillment protocol: UPDATE the payments row to 'paid'
with coalesce-style backfill of the intent/amount/currency fields. -/
def paymentBackfill (s : StripeSession) (payment_id : Nat) (db : DB) : DB :=
  { db with payments := db.payments.map (backfillRow s payment_id) }

/-- Steps 4-5: insert the CreditLedgerEntry and, only when the insert was
new, add the credits to the account balance via upsert-and-increment. When an
entry for this external session id already exists, the INSERT raises
UniqueViolationError and both writes are skipped.

The unique constraint on credit_ledger.stripe_session_id is not declared
under src/ (the DDL lives outside the repo snapshot); its effect is modelled
from the spec ("keyed by (accountId, externalSessionId) with a uniqueness
constraint on the external reference"), which is also what the
except-UniqueViolationError handler in the code assumes. -/
def ledgerAndBalance (sid : String) (user_id : Nat) (credits : Int) (db : DB) : DB :=
  if db.credit_ledger.any (fun e => e.stripe_session_id = some sid) then db
  else
    { db with
      credit_ledger := db.credit_ledger ++ [⟨user_id, credits, "purchase", some sid⟩],
      credits := upsertAdd db.credits user_id credits }

/-- Step 6: unconditionally mark the payment 'fulfilled'. -/
def markFulfilled (payment_id : Nat) (db : DB) : DB :=
  { db with payments := db.payments.map (fulfillRow payment_id) }

/-- Steps 3-6 of the fulfillment protocol, shared by the found-row and the
freshly-inserted-row paths of `_fulfill_checkout_session`. -/
def fulfillApply (s : StripeSession) (sid : String) (payment_id user_id : Nat)
    (credits : Int) (db : DB) : DB :=
  markFulfilled payment_id
    (ledgerAndBalance sid user_id credits (paymentBackfill s payment_id db))

/-- `_fulfill_checkout_session(session)`: look up the payment row by Stripe
session id under a row lock; an already-fulfilled row is an idempotent no-op;
a missing row is inserted as 'paid' from strictly validated metadata; then
the shared ledger-and-balance steps run. (The UniqueViolationError re-fetch
branch of the insert is unreachable in this serialized model: the row lock
makes each delivery see the committed state of the previous one.) -/
def fulfill_checkout_session (s : StripeSession) (db : DB) : DB :=
  match s.id with
  | none => db
  | some sid =>
    match db.payments.find? (fun p => p.stripe_session_id = sid) with
    | some payment =>
        if payment.status = PayStatus.fulfilled then db
        else fulfillApply s sid payment.id payment.user_id payment.credits db
    | none =>
        match s.metadata.user_id, s.metadata.pack_id, s.metadata.credits with
        | some u, some packId, some c =>
            if 0 < c ∧ packId.toList.any (fun ch => !ch.isWhitespace) ∧ db.users.contains u then
              fulfillApply s sid (freshPaymentId db) u c
                { db with
                  payments := db.payments ++
                    [⟨freshPaymentId db, u, packId, c, sid, s.payment_intent,
                      PayStatus.paid, s.amount_total, s.currency⟩] }
            else db
        | _, _, _ => db

/-- `_mark_payment_status(stripe_session_id, status)`: set the payment's
status for a non-success event, guarded by `status != 'fulfilled'` in the
UPDATE's WHERE clause. -/
def mark_payment_status (sid : Option String) (status : PayStatus) (db : DB) : DB :=
  match sid with
  | none => db
  | some s =>
      if status = PayStatus.canceled ∨ status = PayStatus.failed then
        { db with
          payments := db.payments.map (fun p =>
            if p.stripe_session_id = s ∧ p.status ≠ PayStatus.fulfilled then
              { p with status := status }
            else p) }
      else db

/-- The webhook event types dispatched by `stripe_webhook`; each carries the
checkout-session object, and `checkout.session.completed` additionally the
payment_status == 'paid' check result. -/
inductive StripeEvent where
  | checkout_completed (s : StripeSession) (payment_status_paid : Bool)
  | async_payment_succeeded (s : StripeSession)
  | async_payment_failed (s : StripeSession)
  | expired (s : StripeSession)
deriving DecidableEq, Repr

/-- Event dispatch of `stripe_webhook` (after signature verification). -/
def stripe_webhook_handle : StripeEvent → DB → DB
  | StripeEvent.checkout_completed s psPaid, db =>
      if psPaid then fulfill_checkout_session s db else db
  | StripeEvent.async_payment_succeeded s, db => fulfill_checkout_session s db
  | StripeEvent.async_payment_failed s, db =>
      mark_payment_status s.id PayStatus.failed db
  | StripeEvent.expired s, db => mark_payment_status s.id PayStatus.canceled db

/-! ## Credit helpers (src/api/services/credits/functions) -/

/-- `get_ip_credits(ip)`: read the origin's free balance, lazily creating the
row with the configured starting balance `df` when absent. Returns the state
after the lazy insert together with the value read. -/
def get_ip_credits (df : Int) (ip : String) (db : DB) : DB × Int :=
  match lookupA db.ip_credits ip with
  | some f => (db, f)
  | none => ({ db with ip_credits := db.ip_credits ++ [(ip, df)] }, df)

/-- `set_ip_credits(ip, remaining)`: upsert the origin row to
`max(int(remaining), 0)`. -/
def set_ip_credits (ip : String) (remaining : Int) (db : DB) : DB :=
  { db with ip_credits := upsertA db.ip_credits ip (max remaining 0) }

/-- `get_user_credits(email)`: account balance, 0 when no credits row. -/
def get_user_credits (u : Nat) (db : DB) : Int :=
  balanceA db.credits u

/-- `set_user_credits(email, credits)`: clamp to `max(credits, 0)` and UPDATE
the existing credits row (no row means no write). -/
def set_user_credits (u : Nat) (v : Int) (db : DB) : DB :=
  { db with credits := updateA (fun _ => max v 0) db.credits u }

/-- `deduct_user_credits(email, amount)`:
UPDATE credits SET balance = GREATEST(balance - amount, 0). -/
def deduct_user_credits (u : Nat) (amount : Int) (db : DB) : DB :=
  { db with credits := updateA (fun b => max (b - amount) 0) db.credits u }

/-- `ensure_credits_row(user_id)`: INSERT the credits row with the configured
signup balance ON CONFLICT DO NOTHING RETURNING user_id; only when the insert
actually happened and the balance is positive, append one signup_bonus
ledger entry. -/
def ensure_credits_row (u : Nat) (initial_balance : Int) (db : DB) : DB :=
  match lookupA db.credits u with
  | some _ => db
  | none =>
      let db1 : DB := { db with credits := db.credits ++ [(u, initial_balance)] }
      if 0 < initial_balance then
        { db1 with
          credit_ledger :=
            db1.credit_ledger ++ [⟨u, initial_balance, "signup_bonus", none⟩] }
      else db1

/-! ## Credit Consumption Engine -/

/-- Errors surfaced by the consume endpoint
(src/api/services/credits/endpoints.py). -/
inductive ConsumeErr where
  | insufficientCredits
  | loginRequiredForPaidCredits
deriving DecidableEq, Repr

/-- The CreditsResponse payload returned on success. -/
structure CreditsView where
  balance : Int
  freeCredits : Int
  userCredits : Int
deriving DecidableEq, Repr

/-- Decision-and-write phase of `consume_credits`, operating on the balances
`free_credits` / `user_credits` read earlier (the endpoint holds no lock and
no transaction between the reads and these writes, so under concurrency the
values may be stale). Transcribes endpoints.py lines 49-71. -/
def consumeWrite (amount : Int) (ip : String) (user : Option Nat)
    (free_credits user_credits : Int) (db : DB) : DB × Except ConsumeErr CreditsView :=
  if free_credits + user_credits < amount then
    (db, Except.error ConsumeErr.insufficientCredits)
  else if 0 < free_credits then
    if 0 < amount - min free_credits amount then
      match user with
      | none =>
          (set_ip_credits ip (free_credits - min free_credits amount) db,
           Except.error ConsumeErr.loginRequiredForPaidCredits)
      | some u =>
          (set_user_credits u (max (user_credits - (amount - min free_credits amount)) 0)
             (set_ip_credits ip (free_credits - min free_credits amount) db),
           Except.ok
             ⟨free_credits - min free_credits amount +
                max (user_credits - (amount - min free_credits amount)) 0,
              free_credits - min free_credits amount,
              max (user_credits - (amount - min free_credits amount)) 0⟩)
    else
      (set_ip_credits ip (free_credits - min free_credits amount) db,
       Except.ok
         ⟨free_credits - min free_credits amount + user_credits,
          free_credits - min free_credits amount, user_credits⟩)
  else
    if 0 < amount then
      match user with
      | none => (db, Except.error ConsumeErr.loginRequiredForPaidCredits)
      | some u =>
          (set_user_credits u (max (user_credits - amount) 0) db,
           Except.ok
             ⟨free_credits + max (user_credits - amount) 0, free_credits,
              max (user_credits - amount) 0⟩)
    else
      (db, Except.ok ⟨free_credits + user_credits, free_credits, user_credits⟩)

/-- Read phase of `consume_credits`: amount from the payload clamped to at
least 1, free balance via `get_ip_credits`, paid balance via
`get_user_credits` (0 for a guest). -/
def consumeRead (df : Int) (ip : String) (user : Option Nat) (db : DB) : DB × Int × Int :=
  let (db1, free_credits) := get_ip_credits df ip db
  let user_credits :=
    match user with
    | some u => get_user_credits u db1
    | none => 0
  (db1, free_credits, user_credits)

/-- The whole POST /credits/consume endpoint run without interleaving:
read phase immediately followed by the write phase. -/
def consume_credits (df : Int) (ip : String) (user : Option Nat) (amountRaw : Int)
    (db : DB) : DB × Except ConsumeErr CreditsView :=
  let amount := max amountRaw 1
  let (db1, free_credits, user_credits) := consumeRead df ip user db
  consumeWrite amount ip user free_credits user_credits db1

/-! ## Generation creation (src/api/services/generate) -/

/-- A fresh primary key for an inserted generations row. -/
def freshGenerationId (db : DB) : Nat :=
  (db.generations.map (fun g => g.id)).foldr max 0 + 1

/-- `create_generation(conn, user_id, guest_session_id, category)`: INSERT a
'queued' generations row, RETURNING id. -/
def create_generation (user_id guest_session_id : Option Nat) (category : String)
    (db : DB) : DB × Nat :=
  let gid := freshGenerationId db
  ({ db with
     generations :=
       db.generations ++ [⟨gid, user_id, guest_session_id, category, GenStatus.queued, none⟩] },
   gid)

/-- Error raised inside the credit transaction of `generate_image`
(HTTP 400 "Insufficient credits"). -/
inductive GenErr where
  | insufficientCredits
deriving DecidableEq, Repr

/-- The `free_remaining` value RETURNING from the atomic insert-or-decrement
(`INSERT ... VALUES ($1, $2 - 1, NOW()) ON CONFLICT (ip_address) DO UPDATE
SET free_remaining = ip_credits.free_remaining - 1 RETURNING free_remaining`):
the existing balance minus one, or the starting balance minus one when the
origin row did not exist yet. -/
def claimedFree (df : Int) (ip : String) (db : DB) : Int :=
  match lookupA db.ip_credits ip with
  | some f => f - 1
  | none => df - 1

/-- The credit-deduction transaction body of `generate_image`
(endpoints.py lines 121-170): atomic insert-or-decrement of the origin's
free credit (`ip_credit_used = free_remaining >= 0`), compensating +1 restore
on a negative result, locked check-and-decrement of the account balance, and
the generations insert — all in one transaction. Returns the new state, the
generation id, and which pool paid (`ip_credit_used`, `user_credit_used`);
the guest owner reference is nulled when an account owner is present. -/
def generate_tx (df : Int) (ip : String) (user_id guest_session_id : Option Nat)
    (category : String) (db : DB) : Except GenErr (DB × Nat × Bool × Bool) :=
  if 0 ≤ claimedFree df ip db then
    match create_generation user_id (if user_id.isSome then none else guest_session_id)
        category { db with ip_credits := upsertA db.ip_credits ip (claimedFree df ip db) } with
    | (db2, gid) => Except.ok (db2, gid, true, false)
  else
    match user_id with
    | some u =>
        if 1 ≤ balanceA db.credits u then
          match create_generation user_id none category
              { db with
                ip_credits :=
                  updateA (fun x => x + 1)
                    (upsertA db.ip_credits ip (claimedFree df ip db)) ip,
                credits := updateA (fun b => b - 1) db.credits u } with
          | (db4, gid) => Except.ok (db4, gid, false, true)
        else Except.error GenErr.insufficientCredits
    | none => Except.error GenErr.insufficientCredits

/-- The credit transaction as the caller sees it: on error the transaction
context manager rolls every write back, so the original state is kept. -/
def run_generate (df : Int) (ip : String) (user_id guest_session_id : Option Nat)
    (category : String) (db : DB) : DB × Except GenErr Nat :=
  match generate_tx df ip user_id guest_session_id category db with
  | Except.error e => (db, Except.error e)
  | Except.ok (db1, gid, _, _) => (db1, Except.ok gid)

/-! ## Guest session operations (src/api/services/auth/functions/session.py) -/

/-- Per-row effect of the claim UPDATE: reassign a generation to the account
iff it is unowned (`user_id IS NULL`) and owned by the guest session. -/
def claimRow (u g : Nat) (r : GenRow) : GenRow :=
  if r.user_id = none ∧ r.guest_session_id = some g then
    { r with user_id := some u, guest_session_id := none }
  else r

/-- `claim_guest_history(conn, user_id, guest_session_id)`: UPDATE generations
SET user_id = $1, guest_session_id = NULL WHERE user_id IS NULL AND
guest_session_id = $2, returning the affected-row count. -/
def claim_guest_history (u g : Nat) (db : DB) : DB × Nat :=
  ({ db with generations := db.generations.map (claimRow u g) },
   db.generations.countP (fun r => r.user_id = none ∧ r.guest_session_id = some g))

/-- `delete_guest_generations(conn, guest_session_id)`: DELETE FROM
generations WHERE guest_session_id = $1, returning the count. -/
def delete_guest_generations (g : Nat) (db : DB) : DB × Nat :=
  ({ db with generations := db.generations.filter (fun r => ¬r.guest_session_id = some g) },
   db.generations.countP (fun r => r.guest_session_id = some g))

/-! ## Job status (src/api/services/generate/functions/jobs.py) -/

/-- Per-row effect of `update_generation_status`: the 'completed' branch sets
only the status (plus completed_at, not modelled); every other branch sets
status and error_message together. -/
def updStatusRow (status : GenStatus) (err : Option String) (r : GenRow) : GenRow :=
  if status = GenStatus.completed then { r with status := status }
  else { r with status := status, error_message := err }

/-- `update_generation_status(conn, generation_id, status, error_message)`. -/
def update_generation_status (gid : Nat) (status : GenStatus) (err : Option String)
    (db : DB) : DB :=
  { db with
    generations := db.generations.map (fun r => if r.id = gid then updStatusRow status err r else r) }

/-- SQL equality on nullable columns: `col = $p` is satisfied only when both
sides are non-NULL and equal. -/
def sqlEqOpt (a b : Option Nat) : Bool :=
  match a, b with
  | some x, some y => x == y
  | _, _ => false

/-- The caller-visible projection of a generations row returned by
`get_generation`. -/
structure GenView where
  id : Nat
  category : String
  status : GenStatus
  error : Option String
deriving DecidableEq, Repr

/-- `get_generation(conn, generation_id, user_id, guest_session_id)`:
SELECT ... WHERE id = $1 AND (user_id = $2 OR guest_session_id = $3) —
the ownership check is part of the query itself. -/
def get_generation (gid : Nat) (user_id guest_session_id : Option Nat)
    (db : DB) : Option GenView :=
  (db.generations.find? (fun r =>
      r.id == gid && (sqlEqOpt r.user_id user_id || sqlEqOpt r.guest_session_id guest_session_id))).map
    (fun r => ⟨r.id, r.category, r.status, r.error_message⟩)

/-- The GET /generate/\x7bjob_id\x7d endpoint outcome: a missing row — whether the
job does not exist or is owned by someone else — uniformly becomes the 404
detail "Job not found". -/
def get_generation_status (gid : Nat) (user_id guest_session_id : Option Nat)
    (db : DB) : Except String GenView :=
  match get_generation gid user_id guest_session_id db with
  | none => Except.error "Job not found"
  | some v => Except.ok v

/-! ## Worker loop (src/api/services/generate/functions/jobs.py, _worker_loop) -/

/-- Outcome of the try-block body after the processing write: either an
output url from the upstream call with all storage writes succeeding, or an
exception whose `str(exc)` is `msg` (upstream timeout or failure, storage
failure, malformed response). -/
inductive Upstream where
  | ok (url : String)
  | raised (msg : String)
deriving DecidableEq, Repr

/-- One worker processing one dequeued job: write 'processing'; a missing
input asset raises RuntimeError("Input asset not found"); otherwise the
upstream call either succeeds ('completed') or raises ('failed' with
`str(exc)` as the error message). Returns the final state and the ordered
trace of (status, error_message) writes the worker performed on this job's
row. -/
def workerProcess (up : Upstream) (inputPresent : Bool) (jobId : Nat)
    (db : DB) : DB × List (GenStatus × Option String) :=
  let db1 := update_generation_status jobId GenStatus.processing none db
  if inputPresent then
    match up with
    | Upstream.ok _ =>
        (update_generation_status jobId GenStatus.completed none db1,
         [(GenStatus.processing, none), (GenStatus.completed, none)])
    | Upstream.raised msg =>
        (update_generation_status jobId GenStatus.failed (some msg) db1,
         [(GenStatus.processing, none), (GenStatus.failed, some msg)])
  else
    (update_generation_status jobId GenStatus.failed (some "Input asset not found") db1,
     [(GenStatus.processing, none), (GenStatus.failed, some "Input asset not found")])

/-- `job_queue.get()` on the in-memory FIFO queue: hand the head to the
calling worker and remove it, so no other worker can receive the same
enqueued item. -/
def dequeue {J : Type} (q : List J) : Option J × List J :=
  (q.head?, q.tail)

/-! ## Derived state observations -/

/-- Non-negativity of both credit pools: every committed OriginCredit
free_remaining and every AccountCredit balance is at least 0. -/
def DB.nonneg (db : DB) : Prop :=
  (∀ p ∈ db.ip_credits, 0 ≤ p.2) ∧ ∀ p ∈ db.credits, 0 ≤ p.2

/-- The free credit available to an origin: the row value, or the configured
starting balance `df` for an origin whose row would be created lazily. -/
def freeAvail (df : Int) (ip : String) (db : DB) : Int :=
  (lookupA db.ip_credits ip).getD df

/-- The paid credit available to the caller: the account balance, or 0 with
no account. -/
def paidAvail (uid : Option Nat) (db : DB) : Int :=
  match uid with
  | some u => balanceA db.credits u
  | none => 0

/-- Interleaved two-caller schedule against POST /credits/consume: the origin
starts with one free credit; both calls run their read phase before either
runs its write phase. Each phase is a separate pooled-connection round trip
with no lock or transaction spanning the two, so this schedule is
realizable. -/
def overspendStart : DB := DB.mk [] [] [("1.2.3.4", 1)] [] [] []

/-- Caller A's read phase (sees free_remaining = 1). -/
def overspendLocalsA : DB × Int × Int := consumeRead 0 "1.2.3.4" none overspendStart

/-- Caller B's read phase, after A's read (also sees free_remaining = 1). -/
def overspendLocalsB : DB × Int × Int := consumeRead 0 "1.2.3.4" none overspendLocalsA.1

/-- Caller A's write phase, using A's stale locals. -/
def overspendWriteA : DB × Except ConsumeErr CreditsView :=
  consumeWrite 1 "1.2.3.4" none overspendLocalsA.2.1 overspendLocalsA.2.2 overspendLocalsB.1

/-- Caller B's write phase, using B's stale locals, after A committed. -/
def overspendWriteB : DB × Except ConsumeErr CreditsView :=
  consumeWrite 1 "1.2.3.4" none overspendLocalsB.2.1 overspendLocalsB.2.2 overspendWriteA.1

/-! ## Theorems -/

theorem lookupA_upsertA_self {α β : Type} [DecidableEq α] (l : List (α × β)) (k : α) (v : β) :
    lookupA (upsertA l k v) k = some v := by
  induction l with
  | nil => simp [lookupA, upsertA]
  | cons p rest ih =>
      obtain ⟨k1, v1⟩ := p
      by_cases h : k1 = k <;> simp [lookupA, upsertA, h, ih]

theorem lookupA_upsertA_ne {α β : Type} [DecidableEq α] (l : List (α × β)) (k k0 : α) (v : β)
    (h : k ≠ k0) : lookupA (upsertA l k v) k0 = lookupA l k0 := by
  induction l with
  | nil => simp [lookupA, upsertA, h]
  | cons p rest ih =>
      obtain ⟨k1, v1⟩ := p
      by_cases h1 : k1 = k
      · subst h1
        simp [lookupA, upsertA, h]
      · simp [lookupA, upsertA, h1, ih]

theorem lookupA_updateA_self {α β : Type} [DecidableEq α] (f : β → β) (l : List (α × β)) (k : α) :
    lookupA (updateA f l k) k = (lookupA l k).map f := by
  induction l with
  | nil => simp [lookupA, updateA]
  | cons p rest ih =>
      obtain ⟨k1, v1⟩ := p
      by_cases h : k1 = k <;> simp [lookupA, updateA, h, ih]

theorem lookupA_updateA_ne {α β : Type} [DecidableEq α] (f : β → β) (l : List (α × β)) (k k0 : α)
    (h : k ≠ k0) : lookupA (updateA f l k) k0 = lookupA l k0 := by
  induction l with
  | nil => simp [lookupA, updateA]
  | cons p rest ih =>
      obtain ⟨k1, v1⟩ := p
      by_cases h1 : k1 = k
      · subst h1
        simp [lookupA, updateA, h, ih]
      · by_cases h2 : k1 = k0 <;> simp [lookupA, updateA, h1, h2, ih, Ne.symm h]

theorem lookupA_append_of_none {α β : Type} [DecidableEq α] (l l2 : List (α × β)) (k : α)
    (h : lookupA l k = none) : lookupA (l ++ l2) k = lookupA l2 k := by
  induction l with
  | nil => simp
  | cons p rest ih =>
      obtain ⟨k1, v1⟩ := p
      by_cases h1 : k1 = k
      · simp [lookupA, h1] at h
      · simp [lookupA, h1] at h ⊢
        exact ih h

theorem mem_upsertA {α β : Type} [DecidableEq α] (l : List (α × β)) (k : α) (v : β) (p : α × β)
    (h : p ∈ upsertA l k v) : p ∈ l ∨ p.2 = v := by
  induction l with
  | nil =>
      simp [upsertA] at h
      simp [h]
  | cons q rest ih =>
      obtain ⟨k1, v1⟩ := q
      by_cases h1 : k1 = k
      · simp [upsertA, h1] at h
        rcases h with h | h
        · simp [h]
        · exact Or.inl (List.mem_cons_of_mem _ h)
      · simp [upsertA, h1] at h
        rcases h with h | h
        · simp [h]
        · rcases ih h with h2 | h2
          · exact Or.inl (List.mem_cons_of_mem _ h2)
          · exact Or.inr h2

theorem mem_updateA {α β : Type} [DecidableEq α] (f : β → β) (l : List (α × β)) (k : α)
    (p : α × β) (h : p ∈ updateA f l k) : p ∈ l ∨ ∃ v, (p.1, v) ∈ l ∧ p.2 = f v := by
  induction l with
  | nil => simp [updateA] at h
  | cons q rest ih =>
      obtain ⟨k1, v1⟩ := q
      by_cases h1 : k1 = k
      · simp [updateA, h1] at h
        rcases h with h | h
        · right
          exact ⟨v1, by simp [h, h1], by simp [h]⟩
        · rcases ih h with h2 | h2
          · exact Or.inl (List.mem_cons_of_mem _ h2)
          · obtain ⟨v, hv, hp⟩ := h2
            exact Or.inr ⟨v, List.mem_cons_of_mem _ hv, hp⟩
      · simp [updateA, h1] at h
        rcases h with h | h
        · simp [h]
        · rcases ih h with h2 | h2
          · exact Or.inl (List.mem_cons_of_mem _ h2)
          · obtain ⟨v, hv, hp⟩ := h2
            exact Or.inr ⟨v, List.mem_cons_of_mem _ hv, hp⟩

theorem mem_upsertA_strong {α β : Type} [DecidableEq α] (l : List (α × β)) (k0 : α) (v0 : β)
    (p : α × β) (h : p ∈ upsertA l k0 v0) : p ∈ l ∨ p = (k0, v0) := by
  induction l with
  | nil =>
      simp [upsertA] at h
      simp [h]
  | cons q rest ih =>
      obtain ⟨k1, v1⟩ := q
      by_cases h1 : k1 = k0
      · subst h1
        simp [upsertA] at h
        rcases h with h | h
        · simp [h]
        · exact Or.inl (List.mem_cons_of_mem _ h)
      · simp [upsertA, h1] at h
        rcases h with h | h
        · simp [h]
        · rcases ih h with h2 | h2
          · exact Or.inl (List.mem_cons_of_mem _ h2)
          · exact Or.inr h2

theorem mem_updateA_strong {α β : Type} [DecidableEq α] (f : β → β) (l : List (α × β)) (k : α)
    (p : α × β) (h : p ∈ updateA f l k) :
    (p.1 = k ∧ ∃ v, (k, v) ∈ l ∧ p.2 = f v) ∨ (p.1 ≠ k ∧ p ∈ l) := by
  induction l with
  | nil => simp [updateA] at h
  | cons q rest ih =>
      obtain ⟨k1, v1⟩ := q
      by_cases h1 : k1 = k
      · subst h1
        simp [updateA] at h
        rcases h with h | h
        · exact Or.inl ⟨by simp [h], v1, by simp, by simp [h]⟩
        · rcases ih h with ⟨hk, v, hv, hp⟩ | ⟨hk, hp⟩
          · exact Or.inl ⟨hk, v, List.mem_cons_of_mem _ hv, hp⟩
          · exact Or.inr ⟨hk, List.mem_cons_of_mem _ hp⟩
      · simp [updateA, h1] at h
        rcases h with h | h
        · exact Or.inr ⟨by simp [h, h1], by simp [h]⟩
        · rcases ih h with ⟨hk, v, hv, hp⟩ | ⟨hk, hp⟩
          · exact Or.inl ⟨hk, v, List.mem_cons_of_mem _ hv, hp⟩
          · exact Or.inr ⟨hk, List.mem_cons_of_mem _ hp⟩

theorem lookupA_eq_of_mem_nodup {α β : Type} [DecidableEq α] {l : List (α × β)} {k : α} {v : β}
    (hnd : (l.map Prod.fst).Nodup) (h : (k, v) ∈ l) : lookupA l k = some v := by
  induction l with
  | nil => simp at h
  | cons q rest ih =>
      obtain ⟨k1, v1⟩ := q
      rcases List.mem_cons.mp h with h0 | h0
      · obtain ⟨hk, hv⟩ := Prod.mk.injEq .. ▸ h0.symm
        simp [lookupA, hk.symm, hv]
      · have hk1 : k1 ≠ k := by
          intro hc
          subst hc
          have : k1 ∈ rest.map Prod.fst := List.mem_map.mpr ⟨(k1, v), h0, rfl⟩
          exact (List.nodup_cons.mp hnd).1 this
        simp [lookupA, hk1]
        exact ih (List.nodup_cons.mp hnd).2 h0

theorem balanceA_upsertAdd_self (l : List (Nat × Int)) (k : Nat) (d : Int) :
    balanceA (upsertAdd l k d) k = balanceA l k + d := by
  unfold upsertAdd balanceA
  cases h : lookupA l k with
  | none =>
      rw [lookupA_append_of_none l _ k h]
      simp [lookupA]
  | some v =>
      rw [lookupA_updateA_self, h]
      simp

theorem balanceA_upsertAdd_ne (l : List (Nat × Int)) (k k0 : Nat) (d : Int) (h : k ≠ k0) :
    balanceA (upsertAdd l k d) k0 = balanceA l k0 := by
  unfold upsertAdd balanceA
  cases hl : lookupA l k with
  | none =>
      induction l with
      | nil => simp [lookupA, h]
      | cons p rest ih =>
          obtain ⟨k1, v1⟩ := p
          by_cases h1 : k1 = k
          · simp [lookupA, h1] at hl
          · simp [lookupA, h1] at hl ⊢
            by_cases h2 : k1 = k0
            · simp [h2]
            · simp [h2]
              have := ih hl
              simpa using this
  | some v =>
      rw [lookupA_updateA_ne _ _ _ _ h]

theorem lookupA_mem {α β : Type} [DecidableEq α] {l : List (α × β)} {k : α} {v : β}
    (h : lookupA l k = some v) : (k, v) ∈ l := by
  induction l with
  | nil => simp [lookupA] at h
  | cons p rest ih =>
      obtain ⟨k1, v1⟩ := p
      by_cases h1 : k1 = k
      · subst h1
        simp [lookupA] at h
        simp [h]
      · simp [lookupA, h1] at h
        exact List.mem_cons_of_mem _ (ih h)

/-- C4: once a Payment row is `fulfilled`, a later `async_payment_failed` or
`expired` event for the same external session id changes nothing: the
non-success UPDATE is guarded by `status != 'fulfilled'`, so the whole
database state — the Payment's status and every account balance included —
is left exactly as it was. -/
theorem fulfilled_payment_is_terminal (db : DB) (s : StripeSession) (sid : String)
    (hs : s.id = some sid)
    (h : ∀ p ∈ db.payments, p.stripe_session_id = sid → p.status = PayStatus.fulfilled) :
    stripe_webhook_handle (StripeEvent.async_payment_failed s) db = db ∧
    stripe_webhook_handle (StripeEvent.expired s) db = db := by
  have key : ∀ st : PayStatus, mark_payment_status (some sid) st db = db := by
    intro st
    simp only [mark_payment_status]
    by_cases hst : st = PayStatus.canceled ∨ st = PayStatus.failed
    · rw [if_pos hst]
      have hmap : db.payments.map (fun p =>
          if p.stripe_session_id = sid ∧ p.status ≠ PayStatus.fulfilled then
            { p with status := st } else p) = db.payments := by
        have hcong : ∀ p ∈ db.payments,
            (if p.stripe_session_id = sid ∧ p.status ≠ PayStatus.fulfilled then
              { p with status := st } else p) = p := by
          intro p hp
          by_cases hsid : p.stripe_session_id = sid
          · have := h p hp hsid
            simp [hsid, this]
          · simp [hsid]
        calc db.payments.map _ = db.payments.map id := List.map_congr_left hcong
          _ = db.payments := List.map_id _
      rw [hmap]
    · rw [if_neg hst]
  refine ⟨?_, ?_⟩ <;> simp [stripe_webhook_handle, hs, key]

/-- C10: the signup bonus is granted at most once. `ensure_credits_row` is
idempotent; the first call for an account creates the credits row with the
configured initial balance and (when positive) exactly one signup_bonus
ledger entry; any call finding the row already present changes nothing. -/
theorem ensure_credits_row_grants_once (db : DB) (u : Nat) (b : Int) :
    ensure_credits_row u b (ensure_credits_row u b db) = ensure_credits_row u b db ∧
    (lookupA db.credits u = none →
       (ensure_credits_row u b db).balanceOf u = b ∧
       (ensure_credits_row u b db).credit_ledger =
         db.credit_ledger ++ (if 0 < b then [⟨u, b, "signup_bonus", none⟩] else [])) ∧
    (∀ v, lookupA db.credits u = some v → ensure_credits_row u b db = db) := by
  refine ⟨?_, ?_, ?_⟩
  · unfold ensure_credits_row
    cases h : lookupA db.credits u with
    | some v => simp [h]
    | none =>
        have hl : lookupA (db.credits ++ [(u, b)]) u = some b := by
          rw [lookupA_append_of_none _ _ _ h]
          simp [lookupA]
        by_cases hb : 0 < b <;> simp [h, hb, hl]
  · intro h
    have hl : lookupA (db.credits ++ [(u, b)]) u = some b := by
      rw [lookupA_append_of_none _ _ _ h]
      simp [lookupA]
    unfold ensure_credits_row
    by_cases hb : 0 < b <;> simp [h, hb, DB.balanceOf, balanceA, hl]
  · intro v hv
    unfold ensure_credits_row
    simp [hv]

/-- C5 counterexample: an origin whose free pool is exhausted and no
account — the claim says the failure is LoginRequiredForPaidCredits, but
both the consume endpoint and the generate path fail with plain
InsufficientCredits. -/
theorem guest_exhausted_pool_error_counterexample :
    (consume_credits 0 "1.2.3.4" none 1 (DB.mk [] [] [("1.2.3.4", 0)] [] [] [])).2 =
      Except.error ConsumeErr.insufficientCredits ∧
    (run_generate 0 "1.2.3.4" none (some 5) "portrait"
        (DB.mk [] [] [("1.2.3.4", 0)] [] [] [])).2 =
      Except.error GenErr.insufficientCredits ∧
    ConsumeErr.insufficientCredits ≠ ConsumeErr.loginRequiredForPaidCredits := by
  decide

theorem consumeWrite_guest_error (amount free : Int) (ip : String) (db : DB) (e : ConsumeErr)
    (h1 : 1 ≤ amount)
    (he : (consumeWrite amount ip none free 0 db).2 = Except.error e) :
    e = ConsumeErr.insufficientCredits := by
  unfold consumeWrite at he
  by_cases hlt : free + 0 < amount
  · rw [if_pos hlt] at he
    exact Except.error.inj he.symm
  · rw [if_neg hlt] at he
    have hfree : 0 < free := by omega
    have hrem : ¬0 < amount - min free amount := by omega
    rw [if_pos hfree, if_neg hrem] at he
    exact absurd he (by exact fun hc => Except.noConfusion hc)

/-- C5 (amended): with no account present, a failing consume request reports
InsufficientCredits — in particular when the free pool is exhausted. The
distinct LoginRequiredForPaidCredits branch can never be reached by an
account-less caller, because a guest's total equals the free pool, so the
total-vs-amount check fires first. -/
theorem guest_consume_failure_is_insufficient (df : Int) (ip : String) (amountRaw : Int)
    (db : DB) :
    (∀ e, (consume_credits df ip none amountRaw db).2 = Except.error e →
       e = ConsumeErr.insufficientCredits) ∧
    (lookupA db.ip_credits ip = some 0 →
       (consume_credits df ip none 1 db).2 = Except.error ConsumeErr.insufficientCredits) := by
  constructor
  · intro e he
    have h1 : (1 : Int) ≤ max amountRaw 1 := le_max_right _ _
    unfold consume_credits consumeRead get_ip_credits at he
    rcases hip : lookupA db.ip_credits ip with _ | f
    all_goals rw [hip] at he
    all_goals simp only at he
    · exact consumeWrite_guest_error _ _ _ _ _ h1 he
    · exact consumeWrite_guest_error _ _ _ _ _ h1 he
  · intro h0
    unfold consume_credits consumeRead get_ip_credits
    rw [h0]
    simp only [consumeWrite]
    norm_num

/-- C5 amended-claim witness at a concrete state. -/
theorem guest_consume_failure_is_insufficient_witness :
    (consume_credits 0 "1.2.3.4" none 1 (DB.mk [] [] [("1.2.3.4", 0)] [] [] [])).2 =
      Except.error ConsumeErr.insufficientCredits :=
  (guest_consume_failure_is_insufficient 0 "1.2.3.4" 1
    (DB.mk [] [] [("1.2.3.4", 0)] [] [] [])).2 (by decide)

/-- C2: the consume endpoint over-spends the free pool under concurrency.
With a starting free balance of N = 1, the interleaved schedule makes both
calls succeed — two successful free-pool consumptions (each response reports
a free credit consumed), exceeding N. The read and the write of
`consume_credits` are separate unlocked round trips, unlike the atomic
insert-or-decrement used by `generate_image`. -/
theorem concurrent_consume_overspends_free_pool :
    overspendWriteA.2 = Except.ok ⟨0, 0, 0⟩ ∧
    overspendWriteB.2 = Except.ok ⟨0, 0, 0⟩ ∧
    lookupA overspendStart.ip_credits "1.2.3.4" = some 1 ∧
    lookupA overspendWriteB.1.ip_credits "1.2.3.4" = some 0 := by
  decide

/-- C4 witness: a concrete fulfilled payment survives a late failure event. -/
theorem fulfilled_payment_is_terminal_witness :
    stripe_webhook_handle
      (StripeEvent.async_payment_failed ⟨some "cs_1", none, none, none, ⟨none, none, none⟩⟩)
      (DB.mk [7] [(7, 10)] [] [⟨1, 7, "starter", 10, "cs_1", none, PayStatus.fulfilled, none, none⟩]
        [⟨7, 10, "purchase", some "cs_1"⟩] []) =
    DB.mk [7] [(7, 10)] [] [⟨1, 7, "starter", 10, "cs_1", none, PayStatus.fulfilled, none, none⟩]
      [⟨7, 10, "purchase", some "cs_1"⟩] [] :=
  (fulfilled_payment_is_terminal _ _ "cs_1" rfl (by decide)).1

/-- C10 witness: first call grants the bonus, the second call is a no-op. -/
theorem ensure_credits_row_grants_once_witness :
    (ensure_credits_row 7 5 (DB.mk [7] [] [] [] [] [])).balanceOf 7 = 5 ∧
    ensure_credits_row 7 5 (ensure_credits_row 7 5 (DB.mk [7] [] [] [] [] [])) =
      ensure_credits_row 7 5 (DB.mk [7] [] [] [] [] []) :=
  ⟨((ensure_credits_row_grants_once (DB.mk [7] [] [] [] [] []) 7 5).2.1 (by decide)).1,
   (ensure_credits_row_grants_once (DB.mk [7] [] [] [] [] []) 7 5).1⟩

/-- C7: the status query returns a job's data exactly when a generations row
with that id exists whose owner reference (account id or guest session id,
under SQL NULL semantics) matches the caller's resolved identity; a
nonexistent job and an existing job owned by someone else both produce the
very same Except.error "Job not found" outcome. -/
theorem get_generation_status_ownership (db : DB) (gid : Nat) (uid gsid : Option Nat) :
    (∀ v, get_generation_status gid uid gsid db = Except.ok v →
       ∃ r ∈ db.generations, r.id = gid ∧
         (sqlEqOpt r.user_id uid = true ∨ sqlEqOpt r.guest_session_id gsid = true) ∧
         v = ⟨r.id, r.category, r.status, r.error_message⟩) ∧
    ((∀ r ∈ db.generations, r.id ≠ gid) →
       get_generation_status gid uid gsid db = Except.error "Job not found") ∧
    ((∀ r ∈ db.generations, r.id = gid →
         sqlEqOpt r.user_id uid = false ∧ sqlEqOpt r.guest_session_id gsid = false) →
       get_generation_status gid uid gsid db = Except.error "Job not found") := by
  refine ⟨?_, ?_, ?_⟩
  · intro v hv
    unfold get_generation_status at hv
    cases hg : get_generation gid uid gsid db with
    | none => rw [hg] at hv; exact absurd hv (fun hc => Except.noConfusion hc)
    | some w =>
        rw [hg] at hv
        have hvw : v = w := (Except.ok.inj hv).symm
        unfold get_generation at hg
        rw [Option.map_eq_some'] at hg
        obtain ⟨r, hr, hrw⟩ := hg
        have hmem := List.mem_of_find?_eq_some hr
        have hpred := List.find?_some hr
        rw [Bool.and_eq_true, Bool.or_eq_true, beq_iff_eq] at hpred
        exact ⟨r, hmem, hpred.1, hpred.2, by rw [hvw, hrw]⟩
  · intro h
    have hnone : db.generations.find? (fun r =>
        r.id == gid && (sqlEqOpt r.user_id uid || sqlEqOpt r.guest_session_id gsid)) = none := by
      rw [List.find?_eq_none]
      intro r hr
      simp [h r hr]
    unfold get_generation_status get_generation
    rw [hnone]
    rfl
  · intro h
    have hnone : db.generations.find? (fun r =>
        r.id == gid && (sqlEqOpt r.user_id uid || sqlEqOpt r.guest_session_id gsid)) = none := by
      rw [List.find?_eq_none]
      intro r hr
      by_cases hid : r.id = gid
      · have := h r hr hid
        simp [hid, this.1, this.2]
      · simp [hid]
    unfold get_generation_status get_generation
    rw [hnone]
    rfl

/-- C7 witness: a job owned by account 7 is visible to its owner; the same
job queried by account 8, and a nonexistent job id, both yield the identical
"Job not found" outcome. -/
theorem get_generation_status_ownership_witness :
    get_generation_status 1 (some 8) none
        (DB.mk [] [] [] [] [] [⟨1, some 7, none, "portrait", GenStatus.queued, none⟩]) =
      Except.error "Job not found" ∧
    get_generation_status 2 (some 7) none
        (DB.mk [] [] [] [] [] [⟨1, some 7, none, "portrait", GenStatus.queued, none⟩]) =
      Except.error "Job not found" :=
  ⟨(get_generation_status_ownership
      (DB.mk [] [] [] [] [] [⟨1, some 7, none, "portrait", GenStatus.queued, none⟩])
      1 (some 8) none).2.2 (by decide),
   (get_generation_status_ownership
      (DB.mk [] [] [] [] [] [⟨1, some 7, none, "portrait", GenStatus.queued, none⟩])
      2 (some 7) none).2.1 (by decide)⟩

/-- C6: claim is idempotent and monotonic. The claim UPDATE touches exactly
the rows that are account-unowned and owned by the given guest session; a
second claim for the same pair changes nothing and reports 0 transferred
rows; rows already owned by an account are fixed points of the claim, and no
generation-mutating operation (claim, status update, guest-history deletion,
generation insert) ever moves an account-owned row back to guest ownership
or drops it. -/
theorem claim_guest_history_idempotent_monotonic (db : DB) (u g a : Nat) :
    (claim_guest_history u g db).1.generations = db.generations.map (claimRow u g) ∧
    (∀ r : GenRow, r.user_id = none → r.guest_session_id = some g →
       claimRow u g r = { r with user_id := some u, guest_session_id := none }) ∧
    (claim_guest_history u g (claim_guest_history u g db).1).1 =
      (claim_guest_history u g db).1 ∧
    (claim_guest_history u g (claim_guest_history u g db).1).2 = 0 ∧
    (∀ r : GenRow, r.user_id = some a → claimRow u g r = r) ∧
    (∀ r : GenRow, (claimRow u g r).user_id = none → r.user_id = none) ∧
    (∀ (st : GenStatus) (e : Option String) (r : GenRow),
       (updStatusRow st e r).user_id = r.user_id ∧
       (updStatusRow st e r).guest_session_id = r.guest_session_id) ∧
    (∀ r ∈ db.generations, r.user_id = some a → r.guest_session_id = none →
       r ∈ (delete_guest_generations g db).1.generations) ∧
    (∀ (uid2 gsid2 : Option Nat) (cat : String) (r : GenRow), r ∈ db.generations →
       r ∈ (create_generation uid2 gsid2 cat db).1.generations) := by
  have hrow : ∀ r, claimRow u g (claimRow u g r) = claimRow u g r := by
    intro r
    by_cases hc : r.user_id = none ∧ r.guest_session_id = some g
    · simp [claimRow, hc]
    · simp [claimRow, hc]
  have hpred : ∀ r : GenRow,
      ¬((claimRow u g r).user_id = none ∧ (claimRow u g r).guest_session_id = some g) := by
    intro r
    by_cases hc : r.user_id = none ∧ r.guest_session_id = some g
    · simp [claimRow, hc]
    · simp [claimRow, hc]
  refine ⟨rfl, ?_, ?_, ?_, ?_, ?_, ?_, ?_, ?_⟩
  · intro r h1 h2
    simp [claimRow, h1, h2]
  · simp only [claim_guest_history, List.map_map]
    congr 1
    exact List.map_congr_left (fun r _ => hrow r)
  · simp only [claim_guest_history]
    rw [List.countP_eq_zero]
    intro r hr
    obtain ⟨r0, _, hr0⟩ := List.mem_map.mp hr
    subst hr0
    simpa using hpred r0
  · intro r h
    simp [claimRow, h]
  · intro r h
    by_cases hc : r.user_id = none ∧ r.guest_session_id = some g
    · exact hc.1
    · simpa [claimRow, hc] using h
  · intro st e r
    by_cases hst : st = GenStatus.completed <;> simp [updStatusRow, hst]
  · intro r hr h1 h2
    simp [delete_guest_generations, List.mem_filter, hr, h2]
  · intro uid2 gsid2 cat r hr
    simp [create_generation, hr]

/-- C6 witness: a concrete guest history of two generations is transferred
once; the second claim is a no-op transferring nothing. -/
theorem claim_guest_history_idempotent_monotonic_witness :
    (claim_guest_history 7 3
       (claim_guest_history 7 3
          (DB.mk [7] [] [] [] []
            [⟨1, none, some 3, "portrait", GenStatus.completed, none⟩,
             ⟨2, none, some 3, "portrait", GenStatus.queued, none⟩])).1).1 =
      (claim_guest_history 7 3
        (DB.mk [7] [] [] [] []
          [⟨1, none, some 3, "portrait", GenStatus.completed, none⟩,
           ⟨2, none, some 3, "portrait", GenStatus.queued, none⟩])).1 ∧
    (claim_guest_history 7 3
       (claim_guest_history 7 3
          (DB.mk [7] [] [] [] []
            [⟨1, none, some 3, "portrait", GenStatus.completed, none⟩,
             ⟨2, none, some 3, "portrait", GenStatus.queued, none⟩])).1).2 = 0 :=
  ⟨(claim_guest_history_idempotent_monotonic
      (DB.mk [7] [] [] [] []
        [⟨1, none, some 3, "portrait", GenStatus.completed, none⟩,
         ⟨2, none, some 3, "portrait", GenStatus.queued, none⟩]) 7 3 7).2.2.1,
   (claim_guest_history_idempotent_monotonic
      (DB.mk [7] [] [] [] []
        [⟨1, none, some 3, "portrait", GenStatus.completed, none⟩,
         ⟨2, none, some 3, "portrait", GenStatus.queued, none⟩]) 7 3 7).2.2.2.1⟩

/-- C8 counterexample: the worker records `str(exc)` as the error message; a
run where the raised exception stringifies to the empty string (as bare
timeout errors can) ends `failed` with an EMPTY error message, refuting the
claim's "non-empty error message". -/
theorem worker_empty_error_counterexample :
    (workerProcess (Upstream.raised "") true 1
        (DB.mk [] [] [] [] [] [⟨1, some 7, none, "portrait", GenStatus.queued, none⟩])).1.generations =
      [⟨1, some 7, none, "portrait", GenStatus.failed, some ""⟩] ∧
    (workerProcess (Upstream.raised "") true 1
        (DB.mk [] [] [] [] [] [⟨1, some 7, none, "portrait", GenStatus.queued, none⟩])).2 =
      [(GenStatus.processing, none), (GenStatus.failed, some "")] ∧
    String.isEmpty "" = true := by
  decide

/-- C8 (amended): within one job the dequeuing worker writes statuses in the
strict order processing then completed-or-failed (the row starts queued);
when the upstream call raises, the job ends `failed` with its error message
equal to the raised exception's text — non-empty exactly when that text is
non-empty, which the code does not enforce; the credit that funded the job is
not restored (no credit table is touched); and the FIFO queue hands each
enqueued job to exactly one worker. -/
theorem worker_job_lifecycle (up : Upstream) (inp : Bool) (jid : Nat) (db : DB) :
    ((workerProcess up inp jid db).2.map Prod.fst =
        [GenStatus.processing, GenStatus.completed] ∨
     (workerProcess up inp jid db).2.map Prod.fst =
        [GenStatus.processing, GenStatus.failed]) ∧
    (∀ msg, up = Upstream.raised msg → inp = true →
       (workerProcess up inp jid db).2 =
         [(GenStatus.processing, none), (GenStatus.failed, some msg)] ∧
       (workerProcess up inp jid db).1.generations =
         db.generations.map (fun r =>
           if r.id = jid then { r with status := GenStatus.failed, error_message := some msg }
           else r)) ∧
    (workerProcess up inp jid db).1.credits = db.credits ∧
    (workerProcess up inp jid db).1.ip_credits = db.ip_credits ∧
    (∀ (q : List Nat) (j : Nat) (rest : List Nat), q = j :: rest →
       dequeue q = (some j, rest) ∧ (q.Nodup → j ∉ rest)) := by
  refine ⟨?_, ?_, ?_, ?_, ?_⟩
  · cases inp
    · right; rfl
    · cases up
      · left; rfl
      · right; rfl
  · intro msg h1 h2
    subst h1
    subst h2
    refine ⟨rfl, ?_⟩
    show (update_generation_status jid GenStatus.failed (some msg)
        (update_generation_status jid GenStatus.processing none db)).generations = _
    unfold update_generation_status
    rw [List.map_map]
    apply List.map_congr_left
    intro r _
    by_cases hid : r.id = jid
    · simp [hid, updStatusRow]
    · simp [hid]
  · cases inp
    · rfl
    · cases up <;> rfl
  · cases inp
    · rfl
    · cases up <;> rfl
  · intro q j rest h
    subst h
    exact ⟨rfl, fun hnd => (List.nodup_cons.mp hnd).1⟩

/-- C8 amended-claim witness: a concrete failing run and a concrete dequeue. -/
theorem worker_job_lifecycle_witness :
    (workerProcess (Upstream.raised "request timed out") true 1
        (DB.mk [] [] [] [] [] [⟨1, some 7, none, "portrait", GenStatus.queued, none⟩])).2 =
      [(GenStatus.processing, none), (GenStatus.failed, some "request timed out")] ∧
    dequeue [1, 2] = (some 1, [2]) :=
  ⟨((worker_job_lifecycle (Upstream.raised "request timed out") true 1
      (DB.mk [] [] [] [] [] [⟨1, some 7, none, "portrait", GenStatus.queued, none⟩])).2.1
      "request timed out" rfl rfl).1,
   ((worker_job_lifecycle (Upstream.raised "request timed out") true 1
      (DB.mk [] [] [] [] [] [⟨1, some 7, none, "portrait", GenStatus.queued, none⟩])).2.2.2.2
      [1, 2] 1 [2] rfl).1⟩

/-- C3: a generation request is all-or-nothing with respect to credits.
Starting from non-negative balances, when free-plus-paid total is below 1
the transaction fails with InsufficientCredits and rolls back to the exact
original state; otherwise it succeeds, the total drops by exactly one, and
one queued generations row owned by the caller is appended — with the
ledger, payments and users tables untouched. -/
theorem generate_all_or_nothing (df : Int) (ip : String) (uid gsid : Option Nat)
    (cat : String) (db : DB) (hnn : db.nonneg) (hdf : 0 ≤ df) :
    (freeAvail df ip db + paidAvail uid db < 1 →
       run_generate df ip uid gsid cat db = (db, Except.error GenErr.insufficientCredits)) ∧
    (1 ≤ freeAvail df ip db + paidAvail uid db →
       ∃ db1 gid, run_generate df ip uid gsid cat db = (db1, Except.ok gid) ∧
         freeAvail df ip db1 + paidAvail uid db1 =
           freeAvail df ip db + paidAvail uid db - 1 ∧
         db1.generations =
           db.generations ++
             [⟨gid, uid, if uid.isSome then none else gsid, cat, GenStatus.queued, none⟩] ∧
         db1.credit_ledger = db.credit_ledger ∧
         db1.payments = db.payments ∧
         db1.users = db.users) := by
  have hpaid : 0 ≤ paidAvail uid db := by
    cases uid with
    | none => simp [paidAvail]
    | some u =>
        show 0 ≤ balanceA db.credits u
        unfold balanceA
        cases hc : lookupA db.credits u with
        | none => simp
        | some v => simpa using hnn.2 (u, v) (lookupA_mem hc)
  have hfree : 0 ≤ freeAvail df ip db := by
    unfold freeAvail
    cases hip : lookupA db.ip_credits ip with
    | none => simpa using hdf
    | some f => simpa using hnn.1 (ip, f) (lookupA_mem hip)
  have hcf : claimedFree df ip db = freeAvail df ip db - 1 := by
    unfold claimedFree freeAvail
    cases lookupA db.ip_credits ip <;> simp
  constructor
  · intro hlt
    have hneg : ¬0 ≤ claimedFree df ip db := by omega
    unfold run_generate generate_tx
    rw [if_neg hneg]
    cases uid with
    | none => rfl
    | some u =>
        have hb : paidAvail (some u) db = balanceA db.credits u := rfl
        have hbal : ¬1 ≤ balanceA db.credits u := by omega
        simp only [if_neg hbal]
  · intro hge
    by_cases hpos : 0 ≤ claimedFree df ip db
    · refine ⟨{ db with
          ip_credits := upsertA db.ip_credits ip (claimedFree df ip db),
          generations := db.generations ++
            [⟨freshGenerationId db, uid, if uid.isSome then none else gsid, cat,
              GenStatus.queued, none⟩] },
        freshGenerationId db, ?_, ?_, rfl, rfl, rfl, rfl⟩
      · unfold run_generate generate_tx
        rw [if_pos hpos]
        rfl
      · have h1 : freeAvail df ip
            { db with
              ip_credits := upsertA db.ip_credits ip (claimedFree df ip db),
              generations := db.generations ++
                [⟨freshGenerationId db, uid, if uid.isSome then none else gsid, cat,
                  GenStatus.queued, none⟩] } = claimedFree df ip db := by
          unfold freeAvail
          rw [show ({ db with
              ip_credits := upsertA db.ip_credits ip (claimedFree df ip db),
              generations := db.generations ++
                [⟨freshGenerationId db, uid, if uid.isSome then none else gsid, cat,
                  GenStatus.queued, none⟩] } : DB).ip_credits =
            upsertA db.ip_credits ip (claimedFree df ip db) from rfl]
          rw [lookupA_upsertA_self]
          rfl
        have h2 : paidAvail uid
            { db with
              ip_credits := upsertA db.ip_credits ip (claimedFree df ip db),
              generations := db.generations ++
                [⟨freshGenerationId db, uid, if uid.isSome then none else gsid, cat,
                  GenStatus.queued, none⟩] } = paidAvail uid db := by
          cases uid <;> rfl
        rw [h1, h2, hcf]
        ring
    · have hf0 : freeAvail df ip db = 0 := by omega
      cases uid with
      | none =>
          exfalso
          have : paidAvail (none : Option Nat) db = 0 := rfl
          omega
      | some u =>
          have hb : paidAvail (some u) db = balanceA db.credits u := rfl
          have hbal : 1 ≤ balanceA db.credits u := by omega
          refine ⟨{ db with
              ip_credits :=
                updateA (fun x => x + 1)
                  (upsertA db.ip_credits ip (claimedFree df ip db)) ip,
              credits := updateA (fun b => b - 1) db.credits u,
              generations := db.generations ++
                [⟨freshGenerationId db, some u, none, cat, GenStatus.queued, none⟩] },
            freshGenerationId db, ?_, ?_, rfl, rfl, rfl, rfl⟩
          · unfold run_generate generate_tx
            rw [if_neg hpos]
            simp only [if_pos hbal]
            rfl
          · have h1 : lookupA
                (updateA (fun x => x + 1)
                  (upsertA db.ip_credits ip (claimedFree df ip db)) ip) ip =
                some (claimedFree df ip db + 1) := by
              rw [lookupA_updateA_self, lookupA_upsertA_self]
              rfl
            have h2 : freeAvail df ip
                { db with
                  ip_credits :=
                    updateA (fun x => x + 1)
                      (upsertA db.ip_credits ip (claimedFree df ip db)) ip,
                  credits := updateA (fun b => b - 1) db.credits u,
                  generations := db.generations ++
                    [⟨freshGenerationId db, some u, none, cat, GenStatus.queued, none⟩] } =
                claimedFree df ip db + 1 := by
              unfold freeAvail
              rw [show ({ db with
                  ip_credits :=
                    updateA (fun x => x + 1)
                      (upsertA db.ip_credits ip (claimedFree df ip db)) ip,
                  credits := updateA (fun b => b - 1) db.credits u,
                  generations := db.generations ++
                    [⟨freshGenerationId db, some u, none, cat, GenStatus.queued, none⟩] } :
                    DB).ip_credits =
                updateA (fun x => x + 1)
                  (upsertA db.ip_credits ip (claimedFree df ip db)) ip from rfl]
              rw [h1]
              rfl
            cases hc : lookupA db.credits u with
            | none =>
                exfalso
                have : balanceA db.credits u = 0 := by
                  unfold balanceA
                  rw [hc]
                  rfl
                omega
            | some v =>
                have h3 : paidAvail (some u)
                    { db with
                      ip_credits :=
                        updateA (fun x => x + 1)
                          (upsertA db.ip_credits ip (claimedFree df ip db)) ip,
                      credits := updateA (fun b => b - 1) db.credits u,
                      generations := db.generations ++
                        [⟨freshGenerationId db, some u, none, cat, GenStatus.queued, none⟩] } =
                    v - 1 := by
                  show balanceA (updateA (fun b => b - 1) db.credits u) u = v - 1
                  unfold balanceA
                  rw [lookupA_updateA_self, hc]
                  rfl
                have h4 : balanceA db.credits u = v := by
                  unfold balanceA
                  rw [hc]
                  rfl
                rw [h2, h3, hb, h4, hcf, hf0]
                ring

/-- C3 witness: with 1 free credit the request succeeds and debits exactly
one credit; with 0 total it fails with InsufficientCredits and no mutation. -/
theorem generate_all_or_nothing_witness :
    run_generate 0 "9.9.9.9" none (some 3) "portrait"
        (DB.mk [] [] [("9.9.9.9", 0)] [] [] []) =
      (DB.mk [] [] [("9.9.9.9", 0)] [] [] [], Except.error GenErr.insufficientCredits) :=
  (generate_all_or_nothing 0 "9.9.9.9" none (some 3) "portrait"
    (DB.mk [] [] [("9.9.9.9", 0)] [] [] []) ⟨by decide, by decide⟩ (by decide)).1 (by decide)

theorem nonneg_upsertA (l : List (String × Int)) (k : String) (v : Int)
    (h : ∀ p ∈ l, 0 ≤ p.2) (hv : 0 ≤ v) : ∀ p ∈ upsertA l k v, 0 ≤ p.2 := by
  intro p hp
  rcases mem_upsertA_strong l k v p hp with h0 | h0
  · exact h p h0
  · rw [h0]
    exact hv

theorem nonneg_updateA {α : Type} [DecidableEq α] (f : Int → Int) (l : List (α × Int)) (k : α)
    (h : ∀ p ∈ l, 0 ≤ p.2) (hf : ∀ x, 0 ≤ x → 0 ≤ f x) : ∀ p ∈ updateA f l k, 0 ≤ p.2 := by
  intro p hp
  rcases mem_updateA_strong f l k p hp with ⟨_, v, hv, hp2⟩ | ⟨_, hp2⟩
  · rw [hp2]
    exact hf v (h (k, v) hv)
  · exact h p hp2

theorem set_ip_credits_nonneg (ip : String) (v : Int) (db : DB) (hnn : db.nonneg) :
    (set_ip_credits ip v db).nonneg :=
  ⟨nonneg_upsertA _ _ _ hnn.1 (le_max_right _ _), hnn.2⟩

theorem set_user_credits_nonneg (u : Nat) (v : Int) (db : DB) (hnn : db.nonneg) :
    (set_user_credits u v db).nonneg :=
  ⟨hnn.1, nonneg_updateA _ _ _ hnn.2 (fun _ _ => le_max_right _ _)⟩

theorem upsertAdd_nonneg (l : List (Nat × Int)) (k : Nat) (d : Int)
    (h : ∀ p ∈ l, 0 ≤ p.2) (hd : 0 ≤ d) : ∀ p ∈ upsertAdd l k d, 0 ≤ p.2 := by
  unfold upsertAdd
  cases lookupA l k with
  | some v => exact nonneg_updateA _ _ _ h (fun _ hx => by omega)
  | none =>
      intro p hp
      rcases List.mem_append.mp hp with h0 | h0
      · exact h p h0
      · simp at h0
        simp [h0, hd]

theorem ledgerAndBalance_nonneg (sid : String) (u : Nat) (c : Int) (db : DB)
    (h : db.nonneg) (hc : 0 ≤ c) : (ledgerAndBalance sid u c db).nonneg := by
  unfold ledgerAndBalance
  by_cases hany : (db.credit_ledger.any (fun e => e.stripe_session_id = some sid)) = true
  · rw [if_pos hany]
    exact h
  · rw [if_neg hany]
    exact ⟨h.1, upsertAdd_nonneg _ _ _ h.2 hc⟩

theorem fulfillApply_nonneg (s : StripeSession) (sid : String) (pid uidC : Nat) (crC : Int)
    (db : DB) (hnn : db.nonneg) (hcr : 0 ≤ crC) :
    (fulfillApply s sid pid uidC crC db).nonneg :=
  ledgerAndBalance_nonneg sid uidC crC (paymentBackfill s pid db) hnn hcr

theorem generate_tx_ok_nonneg (df : Int) (ip : String) (uid gsid : Option Nat) (cat : String)
    (db db1 : DB) (gid : Nat) (b1 b2 : Bool) (hnn : db.nonneg) (hdf : 0 ≤ df)
    (hnd : (db.credits.map Prod.fst).Nodup)
    (h : generate_tx df ip uid gsid cat db = Except.ok (db1, gid, b1, b2)) :
    db1.nonneg := by
  have hfree : 0 ≤ freeAvail df ip db := by
    unfold freeAvail
    cases hip : lookupA db.ip_credits ip with
    | none => simpa using hdf
    | some f => simpa using hnn.1 (ip, f) (lookupA_mem hip)
  have hcf : claimedFree df ip db = freeAvail df ip db - 1 := by
    unfold claimedFree freeAvail
    cases lookupA db.ip_credits ip <;> simp
  unfold generate_tx at h
  by_cases hpos : 0 ≤ claimedFree df ip db
  · rw [if_pos hpos] at h
    simp only [create_generation] at h
    obtain ⟨hdb1, -⟩ := Prod.mk.injEq .. ▸ (Except.ok.inj h)
    rw [← hdb1]
    exact ⟨nonneg_upsertA _ _ _ hnn.1 hpos, hnn.2⟩
  · rw [if_neg hpos] at h
    cases uid with
    | none => exact absurd h (fun hc => Except.noConfusion hc)
    | some u =>
        dsimp only at h
        by_cases hbal : 1 ≤ balanceA db.credits u
        · rw [if_pos hbal] at h
          simp only [create_generation] at h
          obtain ⟨hdb1, -⟩ := Prod.mk.injEq .. ▸ (Except.ok.inj h)
          rw [← hdb1]
          constructor
          · intro p hp
            rcases mem_updateA_strong _ _ _ p hp with ⟨hk, v, hv, hp2⟩ | ⟨hk, hp2⟩
            · rcases mem_upsertA_strong _ _ _ _ hv with h0 | h0
              · have hvn : (0 : Int) ≤ v := hnn.1 _ h0
                rw [hp2]
                omega
              · have hveq : v = claimedFree df ip db := by
                  simpa using congrArg Prod.snd h0
                rw [hp2, hveq]
                omega
            · rcases mem_upsertA_strong _ _ _ _ hp2 with h0 | h0
              · exact hnn.1 _ h0
              · exfalso
                rw [h0] at hk
                simp at hk
          · intro p hp
            rcases mem_updateA_strong _ _ _ p hp with ⟨hk, v, hv, hp2⟩ | ⟨_, hp2⟩
            · have hlv : lookupA db.credits u = some v := lookupA_eq_of_mem_nodup hnd hv
              have hbv : balanceA db.credits u = v := by
                unfold balanceA
                rw [hlv]
                rfl
              rw [hp2]
              omega
            · exact hnn.2 p hp2
        · rw [if_neg hbal] at h
          exact absurd h (fun hc => Except.noConfusion hc)

/-- C9: non-negativity of both credit pools is preserved by every operation.
Starting from non-negative balances (and primary-key-unique credit rows), no
operation — the generate transaction, the consume endpoint, the set/deduct
credit helpers, signup-bonus row creation, or webhook fulfillment — ever
commits an OriginCredit free_remaining or an AccountCredit balance below 0. -/
theorem balances_never_negative (db : DB) (df : Int) (ip : String)
    (uid gsid user : Option Nat) (cat : String) (u : Nat) (v a amountRaw b0 : Int)
    (s : StripeSession)
    (hnn : db.nonneg) (hdf : 0 ≤ df) (hnd : (db.credits.map Prod.fst).Nodup) :
    (run_generate df ip uid gsid cat db).1.nonneg ∧
    (consume_credits df ip user amountRaw db).1.nonneg ∧
    (set_ip_credits ip v db).nonneg ∧
    (set_user_credits u v db).nonneg ∧
    (deduct_user_credits u a db).nonneg ∧
    (0 ≤ b0 → (ensure_credits_row u b0 db).nonneg) ∧
    ((∀ p ∈ db.payments, 0 < p.credits) → (fulfill_checkout_session s db).nonneg) := by
  refine ⟨?_, ?_, ?_, ?_, ?_, ?_, ?_⟩
  · unfold run_generate
    cases htx : generate_tx df ip uid gsid cat db with
    | error e => exact hnn
    | ok r =>
        obtain ⟨db1, gid, b1, b2⟩ := r
        exact generate_tx_ok_nonneg df ip uid gsid cat db db1 gid b1 b2 hnn hdf hnd htx
  · have hwrite : ∀ (amount f uc : Int) (db2 : DB), db2.nonneg →
        (consumeWrite amount ip user f uc db2).1.nonneg := by
      intro amount f uc db2 hnn2
      unfold consumeWrite
      by_cases h1 : f + uc < amount
      · rw [if_pos h1]
        exact hnn2
      · rw [if_neg h1]
        by_cases h2 : 0 < f
        · rw [if_pos h2]
          by_cases h3 : 0 < amount - min f amount
          · rw [if_pos h3]
            cases user with
            | none => exact set_ip_credits_nonneg _ _ _ hnn2
            | some w =>
                exact set_user_credits_nonneg _ _ _ (set_ip_credits_nonneg _ _ _ hnn2)
          · rw [if_neg h3]
            exact set_ip_credits_nonneg _ _ _ hnn2
        · rw [if_neg h2]
          by_cases h3 : 0 < amount
          · rw [if_pos h3]
            cases user with
            | none => exact hnn2
            | some w => exact set_user_credits_nonneg _ _ _ hnn2
          · rw [if_neg h3]
            exact hnn2
    unfold consume_credits consumeRead get_ip_credits
    cases hip : lookupA db.ip_credits ip with
    | some f => exact hwrite _ _ _ _ hnn
    | none =>
        refine hwrite _ _ _ _ ⟨?_, hnn.2⟩
        intro p hp
        rcases List.mem_append.mp hp with h0 | h0
        · exact hnn.1 p h0
        · simp at h0
          simp [h0, hdf]
  · exact set_ip_credits_nonneg _ _ _ hnn
  · exact set_user_credits_nonneg _ _ _ hnn
  · exact ⟨hnn.1, nonneg_updateA _ _ _ hnn.2 (fun _ _ => le_max_right _ _)⟩
  · intro hb0
    unfold ensure_credits_row
    cases hc : lookupA db.credits u with
    | some w => exact hnn
    | none =>
        by_cases hpos : 0 < b0
        · rw [if_pos hpos]
          refine ⟨hnn.1, ?_⟩
          intro p hp
          rcases List.mem_append.mp hp with h0 | h0
          · exact hnn.2 p h0
          · simp at h0
            simp [h0, hb0]
        · rw [if_neg hpos]
          refine ⟨hnn.1, ?_⟩
          intro p hp
          rcases List.mem_append.mp hp with h0 | h0
          · exact hnn.2 p h0
          · simp at h0
            simp [h0, hb0]
  · intro hpay
    unfold fulfill_checkout_session
    cases s.id with
    | none => exact hnn
    | some sid =>
        dsimp only
        cases hfind : db.payments.find? (fun p => p.stripe_session_id = sid) with
        | some payment =>
            dsimp only
            by_cases hful : payment.status = PayStatus.fulfilled
            · rw [if_pos hful]
              exact hnn
            · rw [if_neg hful]
              have hcr : 0 < payment.credits :=
                hpay payment (List.mem_of_find?_eq_some hfind)
              exact fulfillApply_nonneg _ _ _ _ _ _ hnn (le_of_lt hcr)
        | none =>
            dsimp only
            cases s.metadata.user_id with
            | none => exact hnn
            | some mu =>
                cases s.metadata.pack_id with
                | none => exact hnn
                | some mp =>
                    cases s.metadata.credits with
                    | none => exact hnn
                    | some mc =>
                        dsimp only
                        by_cases hvalid : 0 < mc ∧
                            mp.toList.any (fun ch => !ch.isWhitespace) = true ∧
                            db.users.contains mu = true
                        · rw [if_pos hvalid]
                          exact fulfillApply_nonneg _ _ _ _ _ _ ⟨hnn.1, hnn.2⟩
                            (le_of_lt hvalid.1)
                        · rw [if_neg hvalid]
                          exact hnn

/-- C9 witness at a concrete non-negative state. -/
theorem balances_never_negative_witness :
    (run_generate 0 "1.2.3.4" (some 7) none "portrait"
        (DB.mk [7] [(7, 2)] [("1.2.3.4", 0)] [] [] [])).1.nonneg ∧
    (set_user_credits 7 (-5)
        (DB.mk [7] [(7, 2)] [("1.2.3.4", 0)] [] [] [])).nonneg :=
  ⟨(balances_never_negative (DB.mk [7] [(7, 2)] [("1.2.3.4", 0)] [] [] [])
      0 "1.2.3.4" (some 7) none none "portrait" 7 (-5) 1 1 1
      ⟨some "x", none, none, none, ⟨none, none, none⟩⟩
      ⟨by decide, by decide⟩ (by decide) (by decide)).1,
   (balances_never_negative (DB.mk [7] [(7, 2)] [("1.2.3.4", 0)] [] [] [])
      0 "1.2.3.4" (some 7) none none "portrait" 7 (-5) 1 1 1
      ⟨some "x", none, none, none, ⟨none, none, none⟩⟩
      ⟨by decide, by decide⟩ (by decide) (by decide)).2.2.2.1⟩

theorem backfillRow_sid (s : StripeSession) (pid : Nat) (q : PaymentRow) :
    (backfillRow s pid q).stripe_session_id = q.stripe_session_id := by
  unfold backfillRow
  by_cases h : q.id = pid <;> simp [h]

theorem backfillRow_id (s : StripeSession) (pid : Nat) (q : PaymentRow) :
    (backfillRow s pid q).id = q.id := by
  unfold backfillRow
  by_cases h : q.id = pid <;> simp [h]

theorem fulfillRow_sid (pid : Nat) (q : PaymentRow) :
    (fulfillRow pid q).stripe_session_id = q.stripe_session_id := by
  unfold fulfillRow
  by_cases h : q.id = pid <;> simp [h]

theorem find?_sid_map (f : PaymentRow → PaymentRow)
    (hf : ∀ q, (f q).stripe_session_id = q.stripe_session_id)
    (l : List PaymentRow) (sid : String) :
    (l.map f).find? (fun q => q.stripe_session_id = sid) =
      (l.find? (fun q => q.stripe_session_id = sid)).map f := by
  have hpe : ((fun q => decide (q.stripe_session_id = sid)) ∘ f) =
      (fun q : PaymentRow => decide (q.stripe_session_id = sid)) := by
    funext q
    simp [Function.comp, hf]
  rw [List.find?_map, hpe]

/-- C1: exactly-once credit grant under at-least-once delivery. For a
confirmed payment event whose external session id is not yet in the ledger —
whether a non-fulfilled Payment row already exists or the row is created from
valid metadata — delivering the event K ≥ 1 times adds `credits` to the
account balance exactly once and leaves exactly one CreditLedgerEntry for
that session id; every delivery after the first is a no-op. Deliveries are
serialized by the FOR UPDATE row lock on the payment, so the K-fold
iteration models any delivery schedule. -/
theorem payment_fulfillment_exactly_once (db : DB) (s : StripeSession) (sid : String)
    (uidC : Nat) (crC : Int) (hs : s.id = some sid) (hled : db.ledgerCount sid = 0)
    (hcase :
      (∃ p, db.payments.find? (fun q => q.stripe_session_id = sid) = some p ∧
         p.status ≠ PayStatus.fulfilled ∧ p.user_id = uidC ∧ p.credits = crC) ∨
      (db.payments.find? (fun q => q.stripe_session_id = sid) = none ∧
       ∃ pk, s.metadata.user_id = some uidC ∧ s.metadata.pack_id = some pk ∧
         s.metadata.credits = some crC ∧ 0 < crC ∧
         pk.toList.any (fun ch => !ch.isWhitespace) = true ∧
         db.users.contains uidC = true)) :
    (∀ K, 1 ≤ K →
       ((fulfill_checkout_session s)^[K] db).balanceOf uidC = db.balanceOf uidC + crC ∧
       ((fulfill_checkout_session s)^[K] db).ledgerCount sid = 1) ∧
    fulfill_checkout_session s (fulfill_checkout_session s db) =
      fulfill_checkout_session s db := by
  -- Facts about the shared steps 3-6, for any pre-state with the sid absent
  -- from the ledger and a first sid-row whose primary key is the one passed.
  have happly : ∀ (pid : Nat) (dbx : DB) (r : PaymentRow),
      dbx.credit_ledger = db.credit_ledger →
      dbx.credits = db.credits →
      dbx.payments.find? (fun q => q.stripe_session_id = sid) = some r →
      r.id = pid →
      (fulfillApply s sid pid uidC crC dbx).balanceOf uidC = db.balanceOf uidC + crC ∧
      (fulfillApply s sid pid uidC crC dbx).ledgerCount sid = 1 ∧
      ∃ r2, (fulfillApply s sid pid uidC crC dbx).payments.find?
          (fun q => q.stripe_session_id = sid) = some r2 ∧
        r2.status = PayStatus.fulfilled := by
    intro pid dbx r hl hc hr hrid
    have hcount : dbx.credit_ledger.countP (fun e => e.stripe_session_id = some sid) = 0 := by
      rw [hl]
      exact hled
    have hany : ((paymentBackfill s pid dbx).credit_ledger.any
        (fun e => e.stripe_session_id = some sid)) = false := by
      rw [List.any_eq_false]
      intro e he
      exact (List.countP_eq_zero.mp hcount) e he
    have happ : fulfillApply s sid pid uidC crC dbx =
        markFulfilled pid
          { paymentBackfill s pid dbx with
            credit_ledger :=
              (paymentBackfill s pid dbx).credit_ledger ++
                [⟨uidC, crC, "purchase", some sid⟩],
            credits := upsertAdd (paymentBackfill s pid dbx).credits uidC crC } := by
      unfold fulfillApply ledgerAndBalance
      rw [if_neg (by rw [hany]; exact fun hcontra => Bool.noConfusion hcontra)]
    refine ⟨?_, ?_, ?_⟩
    · rw [happ]
      show balanceA (upsertAdd dbx.credits uidC crC) uidC = balanceA db.credits uidC + crC
      rw [balanceA_upsertAdd_self, hc]
    · rw [happ]
      show ((dbx.credit_ledger ++ [(⟨uidC, crC, "purchase", some sid⟩ : LedgerEntry)]).countP
        (fun e => e.stripe_session_id = some sid)) = 1
      rw [List.countP_append, hcount]
      simp
    · refine ⟨fulfillRow pid (backfillRow s pid r), ?_, ?_⟩
      · rw [happ]
        show ((dbx.payments.map (backfillRow s pid)).map (fulfillRow pid)).find?
            (fun q => q.stripe_session_id = sid) =
          some (fulfillRow pid (backfillRow s pid r))
        rw [find?_sid_map _ (fulfillRow_sid pid),
            find?_sid_map _ (backfillRow_sid s pid), hr]
        rfl
      · unfold fulfillRow
        rw [backfillRow_id, hrid]
        simp
  -- One delivery grants once and leaves the payment findable as fulfilled.
  have hkey : (fulfill_checkout_session s db).balanceOf uidC = db.balanceOf uidC + crC ∧
      (fulfill_checkout_session s db).ledgerCount sid = 1 ∧
      ∃ r2, (fulfill_checkout_session s db).payments.find?
          (fun q => q.stripe_session_id = sid) = some r2 ∧
        r2.status = PayStatus.fulfilled := by
    rcases hcase with ⟨p, hp, hnf, hpu, hpc⟩ | ⟨hnone, pk, hmu, hmp, hmc, hcpos, hpk, husr⟩
    · have hrun : fulfill_checkout_session s db = fulfillApply s sid p.id uidC crC db := by
        unfold fulfill_checkout_session
        rw [hs]
        dsimp only
        rw [hp]
        dsimp only
        rw [if_neg hnf, hpu, hpc]
      rw [hrun]
      exact happly p.id db p rfl rfl hp rfl
    · have hfind2 : ({ db with
          payments := db.payments ++
            [⟨freshPaymentId db, uidC, pk, crC, sid, s.payment_intent,
              PayStatus.paid, s.amount_total, s.currency⟩] } : DB).payments.find?
            (fun q => q.stripe_session_id = sid) =
          some ⟨freshPaymentId db, uidC, pk, crC, sid, s.payment_intent,
            PayStatus.paid, s.amount_total, s.currency⟩ := by
        show (db.payments ++
            [(⟨freshPaymentId db, uidC, pk, crC, sid, s.payment_intent,
              PayStatus.paid, s.amount_total, s.currency⟩ : PaymentRow)]).find?
            (fun q => q.stripe_session_id = sid) =
          some (⟨freshPaymentId db, uidC, pk, crC, sid, s.payment_intent,
            PayStatus.paid, s.amount_total, s.currency⟩ : PaymentRow)
        rw [List.find?_append, hnone]
        simp [List.find?]
      have hrun : fulfill_checkout_session s db =
          fulfillApply s sid (freshPaymentId db) uidC crC
            { db with
              payments := db.payments ++
                [⟨freshPaymentId db, uidC, pk, crC, sid, s.payment_intent,
                  PayStatus.paid, s.amount_total, s.currency⟩] } := by
        unfold fulfill_checkout_session
        rw [hs]
        dsimp only
        rw [hnone]
        dsimp only
        rw [hmu, hmp, hmc]
        dsimp only
        rw [if_pos ⟨hcpos, hpk, husr⟩]
      rw [hrun]
      exact happly (freshPaymentId db) _ _ rfl rfl hfind2 rfl
  -- A delivery arriving at a fulfilled payment is a no-op.
  have hsecond : ∀ dby : DB,
      (∃ r2, dby.payments.find? (fun q => q.stripe_session_id = sid) = some r2 ∧
        r2.status = PayStatus.fulfilled) →
      fulfill_checkout_session s dby = dby := by
    intro dby hex
    obtain ⟨r2, hr2, hst⟩ := hex
    unfold fulfill_checkout_session
    rw [hs]
    dsimp only
    rw [hr2]
    dsimp only
    rw [if_pos hst]
  have hfix : fulfill_checkout_session s (fulfill_checkout_session s db) =
      fulfill_checkout_session s db := hsecond _ hkey.2.2
  have hiter : ∀ n, (fulfill_checkout_session s)^[n] (fulfill_checkout_session s db) =
      fulfill_checkout_session s db := by
    intro n
    induction n with
    | zero => rfl
    | succ m ih =>
        rw [Function.iterate_succ_apply, hfix]
        exact ih
  refine ⟨?_, hfix⟩
  intro K hK
  obtain ⟨k, rfl⟩ : ∃ k, K = k + 1 := ⟨K - 1, by omega⟩
  rw [Function.iterate_succ_apply, hiter k]
  exact ⟨hkey.1, hkey.2.1⟩

/-- C1 witness: a valid metadata-carrying confirmation for a new session id,
delivered twice, grants 10 credits once and writes one ledger row. -/
theorem payment_fulfillment_exactly_once_witness :
    ((fulfill_checkout_session
        ⟨some "cs_1", none, none, none, ⟨some 7, some "starter", some 10⟩⟩)^[2]
        (DB.mk [7] [] [] [] [] [])).balanceOf 7 =
      (DB.mk [7] [] [] [] [] []).balanceOf 7 + 10 ∧
    ((fulfill_checkout_session
        ⟨some "cs_1", none, none, none, ⟨some 7, some "starter", some 10⟩⟩)^[2]
        (DB.mk [7] [] [] [] [] [])).ledgerCount "cs_1" = 1 :=
  (payment_fulfillment_exactly_once (DB.mk [7] [] [] [] [] [])
    ⟨some "cs_1", none, none, none, ⟨some 7, some "starter", some 10⟩⟩
    "cs_1" 7 10 rfl (by decide)
    (Or.inr ⟨rfl, "starter", rfl, rfl, rfl, by decide, by decide, by decide⟩)).1 2 (by decide)

end PicPayGo
